import Mathlib

/-!
Verification of the geometric analysis pipeline of the perspective-cube
scoring service (`main.go`): line fitting, angle-based clustering,
pairwise intersections, vanishing-point estimation and the
error-to-score mappings.  Floating-point arithmetic is modelled by real
arithmetic; `math.MaxFloat64` is modelled by the exact real value of the
largest finite IEEE-754 double.
-/

open Real

/-- A 2D coordinate in canvas space (`Point` in the source). -/
structure Point where
  x : ℝ
  y : ℝ

/-- A stroke is an ordered sequence of points (`Stroke` in the source). -/
abbrev Stroke := List Point

/-- A fitted line in `y = mx + b` form (`Line` in the source). -/
structure Line where
  M : ℝ
  B : ℝ
  Angle : ℝ
  RMSE : ℝ
  Score : ℝ

/-- The exact real value of `math.MaxFloat64`, the sentinel slope used by the
source for vertical lines. -/
noncomputable def maxFloat : ℝ := 2 ^ (1024 : ℕ) - 2 ^ (971 : ℕ)

/-- Default line used to model Go's zero value when indexing. -/
def dfltLine : Line := ⟨0, 0, 0, 0, 0⟩

/-- Mean of the x-coordinates of a stroke (`sumX / n` in `calculateIdealLine`). -/
noncomputable def strokeMeanX (s : Stroke) : ℝ := (s.map Point.x).sum / s.length

/-- Mean of the y-coordinates of a stroke (`sumY / n` in `calculateIdealLine`). -/
noncomputable def strokeMeanY (s : Stroke) : ℝ := (s.map Point.y).sum / s.length

/-- Sum of squared deviations of x from its mean (`sumXX` in `calculateIdealLine`). -/
noncomputable def strokeSumXX (s : Stroke) : ℝ :=
  (s.map (fun p => (p.x - strokeMeanX s) ^ 2)).sum

/-- Variance of the x-coordinates (`varianceX = sumXX / n` in the source). -/
noncomputable def strokeVarX (s : Stroke) : ℝ := strokeSumXX s / s.length

/-- `calculateScore` of the source: maps an RMSE to a 0-100 straightness score
by exponential decay with threshold 5.0, then clamps above at 100 and below
at 0. -/
noncomputable def calculateScore (rmse : ℝ) : ℝ :=
  let threshold : ℝ := 5
  let score := 100 * Real.exp (-rmse / threshold)
  let score := if score > 100 then 100 else score
  if score < 0 then 0 else score

/-- `calculateIdealLine` of the source: least squares fit of one stroke, with a
degenerate all-zero result for strokes of fewer than 2 points and a special
vertical case when the x-variance is below 1.0. -/
noncomputable def calculateIdealLine (stroke : Stroke) : Line :=
  let n : ℝ := stroke.length
  if n < 2 then ⟨0, 0, 0, 0, 0⟩
  else
    let meanX := strokeMeanX stroke
    let meanY := strokeMeanY stroke
    let varianceX := strokeVarX stroke
    if varianceX < 1 then
      let rmse := Real.sqrt (strokeSumXX stroke / n)
      ⟨maxFloat, meanX, 90, rmse, calculateScore rmse⟩
    else
      let sumXY := (stroke.map (fun p => (p.x - meanX) * (p.y - meanY))).sum
      let sumXX2 := (stroke.map (fun p => (p.x - meanX) ^ 2)).sum
      let m := sumXY / sumXX2
      let b := meanY - m * meanX
      let rmse := Real.sqrt ((stroke.map (fun p => (p.y - (m * p.x + b)) ^ 2)).sum / n)
      let angle := Real.arctan m * 180 / Real.pi
      ⟨m, b, angle, rmse, calculateScore rmse⟩

/-- The vertical-band condition of `clusterLines`: `absAngle > 70 && absAngle < 110`. -/
def vertCond (line : Line) : Prop := 70 < |line.Angle| ∧ |line.Angle| < 110

noncomputable instance (line : Line) : Decidable (vertCond line) :=
  inferInstanceAs (Decidable (70 < |line.Angle| ∧ |line.Angle| < 110))

/-- The loop body of `clusterLines`, processing the lines from index `i` on and
appending each index to the verticals, left or right group. -/
noncomputable def clusterAux : List Line → ℕ → List ℕ × List ℕ × List ℕ
  | [], _ => ([], [], [])
  | line :: rest, i =>
    let prev := clusterAux rest (i + 1)
    if vertCond line then (i :: prev.1, prev.2.1, prev.2.2)
    else if line.Angle < 0 then (prev.1, prev.2.1, i :: prev.2.2)
    else (prev.1, i :: prev.2.1, prev.2.2)

/-- `clusterLines` of the source: groups line indices into
(verticals, leftGroup, rightGroup) by fitted angle. -/
noncomputable def clusterLines (lines : List Line) : List ℕ × List ℕ × List ℕ :=
  clusterAux lines 0

/-- `findIntersection` of the source: optional intersection point of two fitted
lines, handling vertical sentinels and near-parallel slopes in the source's
case order. -/
noncomputable def findIntersection (line1 line2 : Line) : Option Point :=
  if line1.M = maxFloat ∧ line2.M = maxFloat then none
  else if line1.M = maxFloat then some ⟨line1.B, line2.M * line1.B + line2.B⟩
  else if line2.M = maxFloat then some ⟨line2.B, line1.M * line2.B + line1.B⟩
  else if |line1.M - line2.M| < 0.001 then none
  else
    let x := (line2.B - line1.B) / (line1.M - line2.M)
    some ⟨x, line1.M * x + line1.B⟩

/-- The double loop of `calculateVanishingPoint`: intersections of every
unordered pair of lines of the group, in source order, dropping parallel
pairs. -/
noncomputable def pairwiseIntersections (lines : List Line) : List ℕ → List Point
  | [] => []
  | g :: rest =>
      rest.filterMap (fun h => findIntersection (lines.getD g dfltLine) (lines.getD h dfltLine))
        ++ pairwiseIntersections lines rest

/-- `calculateVanishingPoint` of the source: centroid of the pairwise
intersection points of a group together with the mean distance of those
points from the centroid; `(none, 0)` for groups of fewer than 2 lines or
with no valid intersection. -/
noncomputable def calculateVanishingPoint (lines : List Line) (group : List ℕ) :
    Option Point × ℝ :=
  if group.length < 2 then (none, 0)
  else
    let intersections := pairwiseIntersections lines group
    if intersections.length = 0 then (none, 0)
    else
      let cx := (intersections.map Point.x).sum / intersections.length
      let cy := (intersections.map Point.y).sum / intersections.length
      let err :=
        (intersections.map (fun p => Real.sqrt ((p.x - cx) ^ 2 + (p.y - cy) ^ 2))).sum /
          intersections.length
      (some ⟨cx, cy⟩, err)

/-- `calculatePerspectiveScore` of the source: average the two convergence
errors, normalize by the canvas diagonal, exponential decay with
sensitivity 10, clamp to [0, 100]. -/
noncomputable def calculatePerspectiveScore (errorL errorR width height : ℝ) : ℝ :=
  let avgError := (errorL + errorR) / 2
  let diagonal := Real.sqrt (width * width + height * height)
  let normalizedError := avgError / diagonal
  let score := 100 * Real.exp (-normalizedError * 10)
  let score := if score > 100 then 100 else score
  if score < 0 then 0 else score

/-- The analysis request: strokes plus canvas dimensions
(`AnalysisRequest` in the source). -/
structure AnalysisRequest where
  strokes : List Stroke
  width : ℝ
  height : ℝ

/-- The numeric part of `AnalysisResult` in the source (the encoded
visualization image is omitted: it carries no numeric content). -/
structure AnalysisResult where
  lineScores : List ℝ
  averageLineScore : ℝ
  leftVP : Option Point
  rightVP : Option Point
  convergenceErrorL : ℝ
  convergenceErrorR : ℝ
  perspectiveScore : ℝ

/-- `analyzeStrokes` of the source: fit all strokes, cluster, estimate the two
vanishing points when their groups have at least 2 members, and compute the
perspective and average scores. -/
noncomputable def analyzeStrokes (req : AnalysisRequest) : AnalysisResult :=
  let lines := req.strokes.map calculateIdealLine
  let lineScores := lines.map Line.Score
  let leftGroup := (clusterLines lines).2.1
  let rightGroup := (clusterLines lines).2.2
  let leftRes := if 2 ≤ leftGroup.length then calculateVanishingPoint lines leftGroup
    else (none, 0)
  let rightRes := if 2 ≤ rightGroup.length then calculateVanishingPoint lines rightGroup
    else (none, 0)
  { lineScores := lineScores
    averageLineScore := lineScores.sum / lineScores.length
    leftVP := leftRes.1
    rightVP := rightRes.1
    convergenceErrorL := leftRes.2
    convergenceErrorR := rightRes.2
    perspectiveScore := calculatePerspectiveScore leftRes.2 rightRes.2 req.width req.height }

/-- The stroke-count validation of `handleAnalyze` in the source: a request
with a stroke count other than 9 is rejected with an HTTP 400 error before
`analyzeStrokes` is invoked. -/
noncomputable def handleAnalyze (req : AnalysisRequest) : Except String AnalysisResult :=
  if req.strokes.length ≠ 9 then Except.error "Expected exactly 9 strokes"
  else Except.ok (analyzeStrokes req)

/-! ## Helper lemmas -/

/-- The source's clamp pattern (cap above at 100, then below at 0) agrees with
`max 0 (min x 100)` for nonnegative `x`. -/
lemma ifClamp_eq (x : ℝ) (hx : 0 ≤ x) :
    (if (if x > 100 then (100 : ℝ) else x) < 0 then 0 else if x > 100 then (100 : ℝ) else x)
      = max 0 (min x 100) := by
  rcases le_or_lt x 100 with h | h
  · rw [if_neg (show ¬x > 100 by linarith)]
    rw [if_neg (not_lt.mpr hx), min_eq_left h, max_eq_right hx]
  · rw [if_pos (show x > 100 from h)]
    rw [if_neg (show ¬(100 : ℝ) < 0 by norm_num), min_eq_right h.le]
    norm_num

lemma calculateScore_eq (rmse : ℝ) :
    calculateScore rmse = max 0 (min (100 * Real.exp (-rmse / 5)) 100) := by
  unfold calculateScore
  exact ifClamp_eq _ (by positivity)

lemma calculatePerspectiveScore_eq (errorL errorR width height : ℝ) :
    calculatePerspectiveScore errorL errorR width height =
      max 0 (min (100 * Real.exp
        (-(((errorL + errorR) / 2) / Real.sqrt (width * width + height * height)) * 10)) 100) := by
  unfold calculatePerspectiveScore
  exact ifClamp_eq _ (by positivity)

/-! ## C6: straightness score -/

/-- C6: the straightness score equals `clamp(100 * e^(-rmse/5), 0, 100)`; as a
function of `rmse ≥ 0` it is monotonically non-increasing, always lies in
[0, 100], and equals exactly 100 at `rmse = 0`. -/
theorem calculateScore_spec (r1 r2 : ℝ) (h0 : 0 ≤ r1) (h12 : r1 ≤ r2) :
    calculateScore r1 = max 0 (min (100 * Real.exp (-r1 / 5)) 100) ∧
    calculateScore r2 ≤ calculateScore r1 ∧
    0 ≤ calculateScore r1 ∧ calculateScore r1 ≤ 100 ∧
    calculateScore 0 = 100 := by
  refine ⟨calculateScore_eq r1, ?_, ?_, ?_, ?_⟩
  · rw [calculateScore_eq, calculateScore_eq]
    have hexp : Real.exp (-r2 / 5) ≤ Real.exp (-r1 / 5) := by
      apply Real.exp_le_exp.mpr; linarith
    exact max_le_max le_rfl (min_le_min (by linarith) le_rfl)
  · rw [calculateScore_eq]; exact le_max_left _ _
  · rw [calculateScore_eq]
    exact max_le (by norm_num) (min_le_right _ _)
  · rw [calculateScore_eq]
    norm_num

/-- Witness for C6 at `r1 = 0`, `r2 = 1`. -/
theorem calculateScore_spec_witness :
    calculateScore 0 = max 0 (min (100 * Real.exp (-0 / 5)) 100) ∧
    calculateScore 1 ≤ calculateScore 0 ∧
    0 ≤ calculateScore 0 ∧ calculateScore 0 ≤ 100 ∧
    calculateScore 0 = 100 :=
  calculateScore_spec 0 1 (by norm_num) (by norm_num)

/-! ## C7: degenerate strokes -/

/-- A stroke of fewer than 2 points takes the first early return of
`calculateIdealLine`, the all-zero line. -/
lemma calcIdeal_short (stroke : Stroke) (h : stroke.length < 2) :
    calculateIdealLine stroke = dfltLine := by
  have h2 : ((stroke.length : ℕ) : ℝ) < 2 := by exact_mod_cast h
  unfold calculateIdealLine
  rw [if_pos h2]
  rfl

/-- C7: a stroke of fewer than 2 points yields the all-zero fitted line
(slope, intercept, angle, RMSE and score all 0); the fitter is a total
function, so no error is raised. -/
theorem calculateIdealLine_degenerate (stroke : Stroke) (h : stroke.length < 2) :
    calculateIdealLine stroke = ⟨0, 0, 0, 0, 0⟩ :=
  calcIdeal_short stroke h

/-- Witness for C7 at the empty stroke and a one-point stroke. -/
theorem calculateIdealLine_degenerate_witness :
    calculateIdealLine [] = ⟨0, 0, 0, 0, 0⟩ ∧
    calculateIdealLine [⟨3, 4⟩] = ⟨0, 0, 0, 0, 0⟩ :=
  ⟨calculateIdealLine_degenerate [] (by norm_num),
   calculateIdealLine_degenerate [⟨3, 4⟩] (by norm_num)⟩

/-! ## C2: vertical special case of the line fitter -/

/-- C2: for a stroke of at least 2 points whose x-variance is below 1.0, the
fitter returns the vertical case: slope equal to the `maxFloat` sentinel,
intercept field equal to the mean x, angle exactly 90, and RMSE equal to the
root-mean-square deviation of the x-coordinates from the mean x. -/
theorem calculateIdealLine_vertical_case (stroke : Stroke)
    (h2 : 2 ≤ stroke.length) (hv : strokeVarX stroke < 1) :
    (calculateIdealLine stroke).M = maxFloat ∧
    (calculateIdealLine stroke).B = strokeMeanX stroke ∧
    (calculateIdealLine stroke).Angle = 90 ∧
    (calculateIdealLine stroke).RMSE =
      Real.sqrt (strokeSumXX stroke / stroke.length) := by
  have hn : ¬((stroke.length : ℝ) < 2) := by
    exact not_lt.mpr (by exact_mod_cast h2)
  simp only [calculateIdealLine]
  rw [if_neg hn, if_pos hv]
  exact ⟨rfl, rfl, rfl, rfl⟩

/-- Witness for C2: a stroke with all points at `x = 50` and varying y yields
angle 90 and `b = 50`. -/
theorem calculateIdealLine_vertical_case_witness :
    (calculateIdealLine [⟨50, 0⟩, ⟨50, 30⟩, ⟨50, 100⟩]).Angle = 90 ∧
    (calculateIdealLine [⟨50, 0⟩, ⟨50, 30⟩, ⟨50, 100⟩]).B = 50 ∧
    (calculateIdealLine [⟨50, 0⟩, ⟨50, 30⟩, ⟨50, 100⟩]).M = maxFloat := by
  have h := calculateIdealLine_vertical_case [⟨50, 0⟩, ⟨50, 30⟩, ⟨50, 100⟩]
    (by norm_num)
    (by norm_num [strokeVarX, strokeSumXX, strokeMeanX])
  refine ⟨h.2.2.1, ?_, h.1⟩
  rw [h.2.1]
  norm_num [strokeMeanX]

/-! ## C4: intersection solver -/

/-- C4: the intersection solver's case order: both vertical (sentinel slope)
gives no intersection; exactly one vertical gives the point at the vertical
line's stored x-position with the other line evaluated there; two
non-vertical lines whose slopes differ by less than 0.001 give no
intersection; otherwise `x = (b2 - b1) / (m1 - m2)`, `y = m1 * x + b1`, a
point that satisfies both line equations. -/
theorem findIntersection_cases (l1 l2 : Line) :
    (l1.M = maxFloat → l2.M = maxFloat → findIntersection l1 l2 = none) ∧
    (l1.M = maxFloat → l2.M ≠ maxFloat →
      findIntersection l1 l2 = some ⟨l1.B, l2.M * l1.B + l2.B⟩) ∧
    (l1.M ≠ maxFloat → l2.M = maxFloat →
      findIntersection l1 l2 = some ⟨l2.B, l1.M * l2.B + l1.B⟩) ∧
    (l1.M ≠ maxFloat → l2.M ≠ maxFloat → |l1.M - l2.M| < 0.001 →
      findIntersection l1 l2 = none) ∧
    (l1.M ≠ maxFloat → l2.M ≠ maxFloat → ¬(|l1.M - l2.M| < 0.001) →
      findIntersection l1 l2 = some ⟨(l2.B - l1.B) / (l1.M - l2.M),
        l1.M * ((l2.B - l1.B) / (l1.M - l2.M)) + l1.B⟩ ∧
      ∀ p, findIntersection l1 l2 = some p →
        p.y = l1.M * p.x + l1.B ∧ p.y = l2.M * p.x + l2.B) := by
  refine ⟨?_, ?_, ?_, ?_, ?_⟩
  · intro h1 h2
    simp only [findIntersection]
    rw [if_pos ⟨h1, h2⟩]
  · intro h1 h2
    simp only [findIntersection]
    rw [if_neg (by tauto), if_pos h1]
  · intro h1 h2
    simp only [findIntersection]
    rw [if_neg (by tauto), if_neg h1, if_pos h2]
  · intro h1 h2 hp
    simp only [findIntersection]
    rw [if_neg (by tauto), if_neg h1, if_neg h2, if_pos hp]
  · intro h1 h2 hp
    have heq : findIntersection l1 l2 = some ⟨(l2.B - l1.B) / (l1.M - l2.M),
        l1.M * ((l2.B - l1.B) / (l1.M - l2.M)) + l1.B⟩ := by
      simp only [findIntersection]
      rw [if_neg (by tauto), if_neg h1, if_neg h2, if_neg hp]
    refine ⟨heq, ?_⟩
    intro p hsome
    rw [heq] at hsome
    have hmne : l1.M - l2.M ≠ 0 := by
      intro h0
      exact hp (by rw [h0]; norm_num)
    cases hsome
    constructor
    · rfl
    · show l1.M * ((l2.B - l1.B) / (l1.M - l2.M)) + l1.B =
        l2.M * ((l2.B - l1.B) / (l1.M - l2.M)) + l2.B
      field_simp
      ring

/-- Witness for C4: the lines `y = x` and `y = -x + 10` intersect at `(5, 5)`,
a point on both lines, and two vertical sentinel lines do not intersect. -/
theorem findIntersection_cases_witness :
    findIntersection ⟨1, 0, 45, 0, 0⟩ ⟨-1, 10, -45, 0, 0⟩ = some ⟨5, 5⟩ ∧
    (5 : ℝ) = 1 * 5 + 0 ∧ (5 : ℝ) = -1 * 5 + 10 ∧
    findIntersection ⟨maxFloat, 20, 90, 0, 0⟩ ⟨maxFloat, 80, 90, 0, 0⟩ = none := by
  have hM1 : (⟨1, 0, 45, 0, 0⟩ : Line).M ≠ maxFloat := by
    norm_num [maxFloat]
  have hM2 : (⟨-1, 10, -45, 0, 0⟩ : Line).M ≠ maxFloat := by
    norm_num [maxFloat]
  have hpar : ¬(|(⟨1, 0, 45, 0, 0⟩ : Line).M - (⟨-1, 10, -45, 0, 0⟩ : Line).M| < 0.001) := by
    norm_num
  have h := (findIntersection_cases ⟨1, 0, 45, 0, 0⟩ ⟨-1, 10, -45, 0, 0⟩).2.2.2.2 hM1 hM2 hpar
  have hv := (findIntersection_cases ⟨maxFloat, 20, 90, 0, 0⟩ ⟨maxFloat, 80, 90, 0, 0⟩).1
    rfl rfl
  refine ⟨?_, by norm_num, by norm_num, hv⟩
  rw [h.1]
  norm_num

/-! ## Clustering characterization -/

/-- Shifting the start index of the clustering loop by one shifts every
produced index by one. -/
lemma clusterAux_succ (lines : List Line) (i : ℕ) :
    (clusterAux lines (i + 1)).1 = (clusterAux lines i).1.map (· + 1) ∧
    (clusterAux lines (i + 1)).2.1 = (clusterAux lines i).2.1.map (· + 1) ∧
    (clusterAux lines (i + 1)).2.2 = (clusterAux lines i).2.2.map (· + 1) := by
  induction lines generalizing i with
  | nil => simp [clusterAux]
  | cons line rest ih =>
    obtain ⟨h1, h2, h3⟩ := ih (i + 1)
    simp only [clusterAux]
    by_cases hv : vertCond line
    · rw [if_pos hv, if_pos hv]
      simp [h1, h2, h3]
    · by_cases hn : line.Angle < 0
      · rw [if_neg hv, if_pos hn, if_neg hv, if_pos hn]
        simp [h1, h2, h3]
      · rw [if_neg hv, if_neg hn, if_neg hv, if_neg hn]
        simp [h1, h2, h3]

/-- Successor membership in a shifted index list. -/
lemma mem_map_add_one (l : List ℕ) (k : ℕ) : k + 1 ∈ l.map (· + 1) ↔ k ∈ l := by
  simp [List.mem_map]

/-- Zero is never a member of a shifted index list. -/
lemma zero_not_mem_map_add_one (l : List ℕ) : 0 ∉ l.map (· + 1) := by
  simp [List.mem_map]

/-- Membership characterization of `clusterLines`: index `j` lands in the
verticals, left or right group according to the angle conditions of the
`j`-th line, mirroring the source's per-line rule. -/
lemma clusterLines_mem_char (lines : List Line) (j : ℕ) :
    (j ∈ (clusterLines lines).1 ↔
      (j < lines.length ∧ vertCond (lines.getD j dfltLine))) ∧
    (j ∈ (clusterLines lines).2.1 ↔
      (j < lines.length ∧ ¬vertCond (lines.getD j dfltLine) ∧
        ¬(lines.getD j dfltLine).Angle < 0)) ∧
    (j ∈ (clusterLines lines).2.2 ↔
      (j < lines.length ∧ ¬vertCond (lines.getD j dfltLine) ∧
        (lines.getD j dfltLine).Angle < 0)) := by
  unfold clusterLines
  induction lines generalizing j with
  | nil => simp [clusterAux]
  | cons line rest ih =>
    obtain ⟨s1, s2, s3⟩ := clusterAux_succ rest 0
    simp only [clusterAux, Nat.zero_add] at s1 s2 s3 ⊢
    by_cases hv : vertCond line
    · rw [if_pos hv]
      refine ⟨?_, ?_, ?_⟩ <;> simp only [s1, s2, s3] <;> cases j with
      | zero => simp [hv, zero_not_mem_map_add_one]
      | succ k =>
        simp [List.mem_cons, mem_map_add_one, (ih k).1, (ih k).2.1, (ih k).2.2,
          Nat.add_lt_add_iff_right]
    · by_cases hn : line.Angle < 0
      · rw [if_neg hv, if_pos hn]
        refine ⟨?_, ?_, ?_⟩ <;> simp only [s1, s2, s3] <;> cases j with
        | zero => simp [hv, hn, zero_not_mem_map_add_one]
        | succ k =>
          simp [List.mem_cons, mem_map_add_one, (ih k).1, (ih k).2.1, (ih k).2.2,
            Nat.add_lt_add_iff_right]
      · rw [if_neg hv, if_neg hn]
        refine ⟨?_, ?_, ?_⟩ <;> simp only [s1, s2, s3] <;> cases j with
        | zero => simp [hv, hn, zero_not_mem_map_add_one]
        | succ k =>
          simp [List.mem_cons, mem_map_add_one, (ih k).1, (ih k).2.1, (ih k).2.2,
            Nat.add_lt_add_iff_right]

/-- Every index produced by the clustering loop started at `i` is at least `i`. -/
lemma clusterAux_mem_ge (lines : List Line) (i : ℕ) :
    (∀ j ∈ (clusterAux lines i).1, i ≤ j) ∧
    (∀ j ∈ (clusterAux lines i).2.1, i ≤ j) ∧
    (∀ j ∈ (clusterAux lines i).2.2, i ≤ j) := by
  induction lines generalizing i with
  | nil => simp [clusterAux]
  | cons line rest ih =>
    obtain ⟨h1, h2, h3⟩ := ih (i + 1)
    simp only [clusterAux]
    by_cases hv : vertCond line
    · rw [if_pos hv]
      refine ⟨?_, ?_, ?_⟩ <;> intro j hj
      · rcases List.mem_cons.mp hj with rfl | hj
        · exact le_rfl
        · exact (h1 j hj).trans' (by omega)
      · exact (h2 j hj).trans' (by omega)
      · exact (h3 j hj).trans' (by omega)
    · by_cases hn : line.Angle < 0
      · rw [if_neg hv, if_pos hn]
        refine ⟨?_, ?_, ?_⟩ <;> intro j hj
        · exact (h1 j hj).trans' (by omega)
        · exact (h2 j hj).trans' (by omega)
        · rcases List.mem_cons.mp hj with rfl | hj
          · exact le_rfl
          · exact (h3 j hj).trans' (by omega)
      · rw [if_neg hv, if_neg hn]
        refine ⟨?_, ?_, ?_⟩ <;> intro j hj
        · exact (h1 j hj).trans' (by omega)
        · rcases List.mem_cons.mp hj with rfl | hj
          · exact le_rfl
          · exact (h2 j hj).trans' (by omega)
        · exact (h3 j hj).trans' (by omega)

/-- The three index lists produced by the clustering loop contain no
duplicates. -/
lemma clusterAux_nodup (lines : List Line) (i : ℕ) :
    (clusterAux lines i).1.Nodup ∧ (clusterAux lines i).2.1.Nodup ∧
    (clusterAux lines i).2.2.Nodup := by
  induction lines generalizing i with
  | nil => simp [clusterAux]
  | cons line rest ih =>
    obtain ⟨h1, h2, h3⟩ := ih (i + 1)
    obtain ⟨g1, g2, g3⟩ := clusterAux_mem_ge rest (i + 1)
    simp only [clusterAux]
    by_cases hv : vertCond line
    · rw [if_pos hv]
      refine ⟨List.nodup_cons.mpr ⟨?_, h1⟩, h2, h3⟩
      intro hmem
      exact absurd (g1 i hmem) (by omega)
    · by_cases hn : line.Angle < 0
      · rw [if_neg hv, if_pos hn]
        refine ⟨h1, h2, List.nodup_cons.mpr ⟨?_, h3⟩⟩
        intro hmem
        exact absurd (g3 i hmem) (by omega)
      · rw [if_neg hv, if_neg hn]
        refine ⟨h1, List.nodup_cons.mpr ⟨?_, h2⟩, h3⟩
        intro hmem
        exact absurd (g2 i hmem) (by omega)

/-! ## C3: clustering is a total partition -/

/-- C3: for any 9 fitted lines the clusterer produces three duplicate-free
index lists that are pairwise disjoint and whose union is exactly the
indices 0..8, assigning each index by the angle rule: |angle| strictly
between 70 and 110 gives Vertical, otherwise a negative angle gives
RightConverging, otherwise LeftConverging; in particular an angle of 80
clusters as Vertical, 45 as LeftConverging and -45 as RightConverging. -/
theorem clusterLines_partition (lines : List Line) (h9 : lines.length = 9) :
    (∀ j, (j ∈ (clusterLines lines).1 ∨ j ∈ (clusterLines lines).2.1 ∨
        j ∈ (clusterLines lines).2.2) ↔ j < 9) ∧
    (∀ j, ¬(j ∈ (clusterLines lines).1 ∧ j ∈ (clusterLines lines).2.1) ∧
      ¬(j ∈ (clusterLines lines).1 ∧ j ∈ (clusterLines lines).2.2) ∧
      ¬(j ∈ (clusterLines lines).2.1 ∧ j ∈ (clusterLines lines).2.2)) ∧
    ((clusterLines lines).1.Nodup ∧ (clusterLines lines).2.1.Nodup ∧
      (clusterLines lines).2.2.Nodup) ∧
    (∀ j, j < 9 →
      ((j ∈ (clusterLines lines).1 ↔ vertCond (lines.getD j dfltLine)) ∧
       (j ∈ (clusterLines lines).2.2 ↔
         ¬vertCond (lines.getD j dfltLine) ∧ (lines.getD j dfltLine).Angle < 0) ∧
       (j ∈ (clusterLines lines).2.1 ↔
         ¬vertCond (lines.getD j dfltLine) ∧ ¬(lines.getD j dfltLine).Angle < 0))) ∧
    (∀ j, j < 9 →
      (((lines.getD j dfltLine).Angle = 80 → j ∈ (clusterLines lines).1) ∧
       ((lines.getD j dfltLine).Angle = 45 → j ∈ (clusterLines lines).2.1) ∧
       ((lines.getD j dfltLine).Angle = -45 → j ∈ (clusterLines lines).2.2))) := by
  have char := fun j => clusterLines_mem_char lines j
  refine ⟨?_, ?_, ?_, ?_, ?_⟩
  · intro j
    rw [(char j).1, (char j).2.1, (char j).2.2, h9]
    by_cases hvc : vertCond (lines.getD j dfltLine) <;> tauto
  · intro j
    rw [(char j).1, (char j).2.1, (char j).2.2]
    tauto
  · exact clusterAux_nodup lines 0
  · intro j hj
    rw [(char j).1, (char j).2.1, (char j).2.2, h9]
    tauto
  · intro j hj
    refine ⟨?_, ?_, ?_⟩ <;> intro ha
    · rw [(char j).1, h9]
      refine ⟨hj, ?_⟩
      rw [vertCond, ha, abs_of_nonneg (by norm_num)]
      norm_num
    · rw [(char j).2.1, h9]
      refine ⟨hj, ?_, ?_⟩
      · rw [vertCond, ha, abs_of_nonneg (by norm_num)]
        norm_num
      · rw [ha]
        norm_num
    · rw [(char j).2.2, h9]
      refine ⟨hj, ?_, ?_⟩
      · rw [vertCond, ha, abs_of_nonpos (by norm_num)]
        norm_num
      · rw [ha]
        norm_num

/-- Example lines with angles 80, 45, -45, 90, 0, 10, -10, 89 and -89, used to
instantiate the clustering theorem. -/
def sampleLines : List Line :=
  [⟨0, 0, 80, 0, 0⟩, ⟨0, 0, 45, 0, 0⟩, ⟨0, 0, -45, 0, 0⟩, ⟨0, 0, 90, 0, 0⟩,
   ⟨0, 0, 0, 0, 0⟩, ⟨0, 0, 10, 0, 0⟩, ⟨0, 0, -10, 0, 0⟩, ⟨0, 0, 89, 0, 0⟩,
   ⟨0, 0, -89, 0, 0⟩]

/-- Witness for C3 at nine concrete lines: angle 80 is Vertical, 45 is
LeftConverging, -45 is RightConverging, the union covers index 3, and the
vertical and left groups do not overlap at index 0. -/
theorem clusterLines_partition_witness :
    0 ∈ (clusterLines sampleLines).1 ∧
    1 ∈ (clusterLines sampleLines).2.1 ∧
    2 ∈ (clusterLines sampleLines).2.2 ∧
    ((3 ∈ (clusterLines sampleLines).1 ∨ 3 ∈ (clusterLines sampleLines).2.1 ∨
      3 ∈ (clusterLines sampleLines).2.2) ↔ 3 < 9) ∧
    ¬(0 ∈ (clusterLines sampleLines).1 ∧ 0 ∈ (clusterLines sampleLines).2.1) := by
  have h := clusterLines_partition sampleLines (by rfl)
  refine ⟨?_, ?_, ?_, h.1 3, (h.2.1 0).1⟩
  · exact (h.2.2.2.2 0 (by norm_num)).1 rfl
  · exact (h.2.2.2.2 1 (by norm_num)).2.1 rfl
  · exact (h.2.2.2.2 2 (by norm_num)).2.2 rfl

/-! ## C5: vanishing-point estimation -/

/-- The double loop over unordered pairs yields at most `C(k, 2)` points. -/
lemma pairwiseIntersections_length_le (lines : List Line) (group : List ℕ) :
    (pairwiseIntersections lines group).length ≤ group.length.choose 2 := by
  induction group with
  | nil => simp [pairwiseIntersections]
  | cons g rest ih =>
    simp only [pairwiseIntersections, List.length_append, List.length_cons]
    have h1 : (rest.filterMap (fun h =>
        findIntersection (lines.getD g dfltLine) (lines.getD h dfltLine))).length ≤
        rest.length := List.length_filterMap_le _ _
    have h2 : (rest.length + 1).choose 2 = rest.length.choose 1 + rest.length.choose 2 :=
      Nat.choose_succ_succ rest.length 1
    rw [h2, Nat.choose_one_right]
    omega

/-- C5: the estimator is absent exactly when the group has fewer than 2 lines
or no valid pairwise intersection remains; otherwise the centroid is the
arithmetic mean of the valid intersection points and the convergence error
is the mean (unsquared) Euclidean distance of those points from the
centroid; the number of valid intersections is at most `C(k, 2)`; and when
all pairwise intersections coincide the convergence error is 0. -/
theorem calculateVanishingPoint_spec (lines : List Line) (group : List ℕ) :
    (group.length < 2 → calculateVanishingPoint lines group = (none, 0)) ∧
    (pairwiseIntersections lines group = [] →
      calculateVanishingPoint lines group = (none, 0)) ∧
    (2 ≤ group.length → pairwiseIntersections lines group ≠ [] →
      calculateVanishingPoint lines group =
        (some ⟨((pairwiseIntersections lines group).map Point.x).sum /
            (pairwiseIntersections lines group).length,
          ((pairwiseIntersections lines group).map Point.y).sum /
            (pairwiseIntersections lines group).length⟩,
        ((pairwiseIntersections lines group).map (fun p => Real.sqrt
            ((p.x - ((pairwiseIntersections lines group).map Point.x).sum /
              (pairwiseIntersections lines group).length) ^ 2 +
             (p.y - ((pairwiseIntersections lines group).map Point.y).sum /
              (pairwiseIntersections lines group).length) ^ 2))).sum /
          (pairwiseIntersections lines group).length)) ∧
    ((pairwiseIntersections lines group).length ≤ group.length.choose 2) ∧
    (∀ p, 2 ≤ group.length → pairwiseIntersections lines group ≠ [] →
      (∀ q ∈ pairwiseIntersections lines group, q = p) →
      calculateVanishingPoint lines group = (some p, 0)) := by
  refine ⟨?_, ?_, ?_, pairwiseIntersections_length_le lines group, ?_⟩
  · intro h
    unfold calculateVanishingPoint
    rw [if_pos h]
  · intro h
    unfold calculateVanishingPoint
    by_cases hlen : group.length < 2
    · rw [if_pos hlen]
    · rw [if_neg hlen, h]
      simp
  · intro h2 hne
    unfold calculateVanishingPoint
    rw [if_neg (not_lt.mpr h2), if_neg (by simpa [List.length_eq_zero] using hne)]
  · intro p h2 hne hall
    have hlen : (pairwiseIntersections lines group).length ≠ 0 := by
      simpa [List.length_eq_zero] using hne
    have hlenR : ((pairwiseIntersections lines group).length : ℝ) ≠ 0 :=
      Nat.cast_ne_zero.mpr hlen
    have hrep : pairwiseIntersections lines group =
        List.replicate (pairwiseIntersections lines group).length p :=
      List.eq_replicate_of_mem hall
    have hxsum : ((pairwiseIntersections lines group).map Point.x).sum =
        ((pairwiseIntersections lines group).length : ℝ) * p.x := by
      conv_lhs => rw [hrep]
      rw [List.map_replicate, List.sum_replicate, nsmul_eq_mul]
    have hysum : ((pairwiseIntersections lines group).map Point.y).sum =
        ((pairwiseIntersections lines group).length : ℝ) * p.y := by
      conv_lhs => rw [hrep]
      rw [List.map_replicate, List.sum_replicate, nsmul_eq_mul]
    have hcx : ((pairwiseIntersections lines group).map Point.x).sum /
        ((pairwiseIntersections lines group).length : ℝ) = p.x := by
      rw [hxsum, mul_div_cancel_left₀ _ hlenR]
    have hcy : ((pairwiseIntersections lines group).map Point.y).sum /
        ((pairwiseIntersections lines group).length : ℝ) = p.y := by
      rw [hysum, mul_div_cancel_left₀ _ hlenR]
    unfold calculateVanishingPoint
    rw [if_neg (not_lt.mpr h2), if_neg (by simpa [List.length_eq_zero] using hne)]
    simp only [hcx, hcy]
    have herr : ((pairwiseIntersections lines group).map (fun q => Real.sqrt
        ((q.x - p.x) ^ 2 + (q.y - p.y) ^ 2))).sum = 0 := by
      conv_lhs => rw [hrep]
      rw [List.map_replicate, List.sum_replicate]
      simp
    rw [herr, zero_div]

/-- Three concurrent sample lines `y = x`, `y = 2x - 1`, `y = 3x - 2`, all
through `(1, 1)`. -/
def concurrentLines : List Line :=
  [⟨1, 0, 45, 0, 0⟩, ⟨2, -1, 63, 0, 0⟩, ⟨3, -2, 71, 0, 0⟩]

/-- The pairwise intersections of the three concurrent sample lines coincide
at `(1, 1)`. -/
lemma concurrentLines_pairwise :
    pairwiseIntersections concurrentLines [0, 1, 2] = [⟨1, 1⟩, ⟨1, 1⟩, ⟨1, 1⟩] := by
  have h1 : ((1 : ℝ)) ≠ maxFloat := by norm_num [maxFloat]
  have h2 : ((2 : ℝ)) ≠ maxFloat := by norm_num [maxFloat]
  have h3 : ((3 : ℝ)) ≠ maxFloat := by norm_num [maxFloat]
  simp only [pairwiseIntersections, concurrentLines, List.getD, List.get?, dfltLine,
    List.filterMap, findIntersection]
  norm_num [maxFloat, Point.mk.injEq]

/-- Witness for C5: for the three concurrent sample lines the estimate is the
common point `(1, 1)` with convergence error exactly 0. -/
theorem calculateVanishingPoint_spec_witness :
    calculateVanishingPoint concurrentLines [0, 1, 2] = (some ⟨1, 1⟩, 0) := by
  apply (calculateVanishingPoint_spec concurrentLines [0, 1, 2]).2.2.2.2 ⟨1, 1⟩
    (by norm_num)
  · rw [concurrentLines_pairwise]
    simp
  · rw [concurrentLines_pairwise]
    intro q hq
    simpa using (by simpa using hq : q = ⟨1, 1⟩ ∨ q = ⟨1, 1⟩ ∨ q = ⟨1, 1⟩).elim id
      (fun h => h.elim id id)

/-! ## C1: perspective score -/

/-- C1: the perspective score is `clamp(100 * e^(-10 * normalizedError), 0, 100)`
where `normalizedError` averages the two convergence errors and divides by
the canvas diagonal; and for every input whose left group has fewer than 2
members, the absent left estimate contributes error 0, so the pipeline's
perspective score equals the score computed with a perfectly converging
(zero-error) left group. -/
theorem perspectiveScore_spec :
    (∀ errL errR w h : ℝ, calculatePerspectiveScore errL errR w h =
      max 0 (min (100 * Real.exp
        (-(((errL + errR) / 2) / Real.sqrt (w * w + h * h)) * 10)) 100)) ∧
    (∀ req : AnalysisRequest,
      (clusterLines (req.strokes.map calculateIdealLine)).2.1.length < 2 →
      (analyzeStrokes req).perspectiveScore =
        calculatePerspectiveScore 0 (analyzeStrokes req).convergenceErrorR
          req.width req.height) := by
  constructor
  · intro errL errR w h
    exact calculatePerspectiveScore_eq errL errR w h
  · intro req hL
    have hnot : ¬(2 ≤ (clusterLines (req.strokes.map calculateIdealLine)).2.1.length) :=
      not_le.mpr hL
    simp only [analyzeStrokes]
    rw [if_neg hnot]

/-- A request of nine identical vertical strokes at `x = 50`. -/
def vertRequest : AnalysisRequest :=
  ⟨List.replicate 9 [⟨50, 0⟩, ⟨50, 100⟩], 800, 600⟩

/-- The fitted line of the vertical sample stroke has angle 90. -/
lemma vertStroke_angle : (calculateIdealLine [⟨50, 0⟩, ⟨50, 100⟩]).Angle = 90 := by
  simp only [calculateIdealLine]
  rw [if_neg (by norm_num), if_pos (by norm_num [strokeVarX, strokeSumXX, strokeMeanX])]

/-- All nine strokes of `vertRequest` are clustered as vertical, so its left
group is empty. -/
lemma vertRequest_leftGroup :
    (clusterLines (vertRequest.strokes.map calculateIdealLine)).2.1 = [] := by
  rw [List.eq_nil_iff_forall_not_mem]
  intro j hj
  obtain ⟨hlen, hnv, _⟩ := (clusterLines_mem_char _ j).2.1.mp hj
  apply hnv
  have hlen9 : j < 9 := by
    simpa [vertRequest] using hlen
  have hget : (vertRequest.strokes.map calculateIdealLine).getD j dfltLine =
      calculateIdealLine [⟨50, 0⟩, ⟨50, 100⟩] := by
    rw [List.getD_eq_getElem _ _ (by simpa [vertRequest] using hlen9)]
    simp only [vertRequest, List.map_replicate, List.getElem_replicate]
  rw [hget]
  constructor <;> rw [vertStroke_angle] <;> rw [abs_of_nonneg (by norm_num)] <;> norm_num

/-- Witness for C1 at `vertRequest`: the left group is empty, hence the
perspective score equals the score of a perfectly converging left group. -/
theorem perspectiveScore_spec_witness :
    calculatePerspectiveScore 3 4 800 600 =
      max 0 (min (100 * Real.exp
        (-(((3 + 4) / 2) / Real.sqrt (800 * 800 + 600 * 600)) * 10)) 100) ∧
    (analyzeStrokes vertRequest).perspectiveScore =
      calculatePerspectiveScore 0 (analyzeStrokes vertRequest).convergenceErrorR
        vertRequest.width vertRequest.height := by
  constructor
  · exact perspectiveScore_spec.1 3 4 800 600
  · apply perspectiveScore_spec.2 vertRequest
    rw [vertRequest_leftGroup]
    norm_num

/-! ## C8: stroke-count validation -/

/-- The all-zero line is not classified vertical. -/
lemma not_vertCond_dflt : ¬vertCond dfltLine := by
  rw [vertCond]
  norm_num [dfltLine]

/-- The all-zero line does not have a negative angle. -/
lemma not_neg_dflt : ¬dfltLine.Angle < 0 := by
  norm_num [dfltLine]

/-- Two all-zero lines fall into the near-parallel case of the intersection
solver. -/
lemma findIntersection_dflt_dflt : findIntersection dfltLine dfltLine = none := by
  unfold findIntersection
  rw [if_neg (by norm_num [dfltLine, maxFloat]), if_neg (by norm_num [dfltLine, maxFloat]),
    if_neg (by norm_num [dfltLine, maxFloat]), if_pos (by norm_num [dfltLine])]

/-- Clustering two all-zero lines puts both indices into the left group. -/
lemma clusterLines_dflt_dflt : clusterLines [dfltLine, dfltLine] = ([], [0, 1], []) := by
  simp only [clusterLines, clusterAux]
  rw [if_neg not_vertCond_dflt, if_neg not_neg_dflt, if_neg not_vertCond_dflt,
    if_neg not_neg_dflt]

/-- The two all-zero lines yield no valid pairwise intersection. -/
lemma pairwise_dflt_dflt : pairwiseIntersections [dfltLine, dfltLine] [0, 1] = [] := by
  simp [pairwiseIntersections, List.getD_cons_zero, List.getD_cons_succ,
    findIntersection_dflt_dflt]

/-- The vanishing-point estimate of the two all-zero lines is absent. -/
lemma vp_dflt_dflt : calculateVanishingPoint [dfltLine, dfltLine] [0, 1] = (none, 0) := by
  unfold calculateVanishingPoint
  rw [if_neg (by norm_num), pairwise_dflt_dflt]
  simp

/-- With both convergence errors 0 the perspective score is exactly 100. -/
lemma perspectiveScore_zero_zero : calculatePerspectiveScore 0 0 100 100 = 100 := by
  rw [calculatePerspectiveScore_eq]
  norm_num [Real.exp_zero]

/-- A malformed request of two empty strokes. -/
def shortRequest : AnalysisRequest := ⟨[[], []], 100, 100⟩

/-- Counterexample to C8 as stated: invoked directly with 2 strokes (not 9),
the core `analyzeStrokes` performs no defensive validation and produces a
complete, normal analysis result (it even scores the malformed input with a
perfect perspective score of 100). -/
theorem analyzeStrokes_no_validation_counterexample :
    (analyzeStrokes shortRequest).lineScores = [0, 0] ∧
    (analyzeStrokes shortRequest).averageLineScore = 0 ∧
    (analyzeStrokes shortRequest).leftVP = none ∧
    (analyzeStrokes shortRequest).rightVP = none ∧
    (analyzeStrokes shortRequest).convergenceErrorL = 0 ∧
    (analyzeStrokes shortRequest).convergenceErrorR = 0 ∧
    (analyzeStrokes shortRequest).perspectiveScore = 100 := by
  have hmap : shortRequest.strokes.map calculateIdealLine = [dfltLine, dfltLine] := by
    simp only [shortRequest, List.map_cons, List.map_nil]
    rw [calcIdeal_short [] (by norm_num)]
  simp only [analyzeStrokes, hmap, clusterLines_dflt_dflt]
  norm_num [vp_dflt_dflt, perspectiveScore_zero_zero, shortRequest,
    show dfltLine.Score = (0 : ℝ) from rfl]

/-- C8 (amended): the stroke-count validation lives in the caller
`handleAnalyze`, which rejects any request whose stroke count is not 9 with
a validation error before the core runs; the core itself performs no such
check. -/
theorem handleAnalyze_validation (req : AnalysisRequest) (h : req.strokes.length ≠ 9) :
    handleAnalyze req = Except.error "Expected exactly 9 strokes" := by
  unfold handleAnalyze
  rw [if_pos h]

/-- Witness for C8 (amended) at the two-stroke request. -/
theorem handleAnalyze_validation_witness :
    handleAnalyze shortRequest = Except.error "Expected exactly 9 strokes" :=
  handleAnalyze_validation shortRequest (by norm_num [shortRequest])

/-! ## C9: degenerate strokes join the left group -/

/-- `calculateScore` at RMSE 0 is exactly 100. -/
lemma calculateScore_zero : calculateScore 0 = 100 := by
  rw [calculateScore_eq]
  norm_num [Real.exp_zero]

/-- Degrees conversion of `arctan 1` is 45. -/
lemma arctan_one_deg : Real.arctan 1 * 180 / Real.pi = 45 := by
  rw [Real.arctan_one]
  field_simp
  ring

/-- Degrees form of the quarter turn. -/
lemma pi_div_four_deg : Real.pi / 4 * 180 / Real.pi = 45 := by
  field_simp
  ring

/-- A sample stroke on the line `y = x - 10`. -/
def strokeA : Stroke := [⟨0, -10⟩, ⟨20, 10⟩]

/-- A sample stroke on the line `y = x - 20`. -/
def strokeB : Stroke := [⟨0, -20⟩, ⟨40, 20⟩]

/-- The fitted line of `strokeA`. -/
def lineA : Line := ⟨1, -10, 45, 0, 100⟩

/-- The fitted line of `strokeB`. -/
def lineB : Line := ⟨1, -20, 45, 0, 100⟩

lemma lineA_eq : calculateIdealLine strokeA = lineA := by
  simp only [calculateIdealLine]
  rw [if_neg (by norm_num [strokeA]),
    if_neg (by norm_num [strokeVarX, strokeSumXX, strokeMeanX, strokeA])]
  simp only [lineA, Line.mk.injEq]
  refine ⟨?_, ?_, ?_, ?_, ?_⟩
  · norm_num [strokeA, strokeMeanX, strokeMeanY]
  · norm_num [strokeA, strokeMeanX, strokeMeanY]
  · norm_num [strokeA, strokeMeanX, strokeMeanY, arctan_one_deg, pi_div_four_deg]
  · norm_num [strokeA, strokeMeanX, strokeMeanY, Real.sqrt_zero]
  · norm_num [strokeA, strokeMeanX, strokeMeanY, Real.sqrt_zero, calculateScore_zero]

lemma lineB_eq : calculateIdealLine strokeB = lineB := by
  simp only [calculateIdealLine]
  rw [if_neg (by norm_num [strokeB]),
    if_neg (by norm_num [strokeVarX, strokeSumXX, strokeMeanX, strokeB])]
  simp only [lineB, Line.mk.injEq]
  refine ⟨?_, ?_, ?_, ?_, ?_⟩
  · norm_num [strokeB, strokeMeanX, strokeMeanY]
  · norm_num [strokeB, strokeMeanX, strokeMeanY]
  · norm_num [strokeB, strokeMeanX, strokeMeanY, arctan_one_deg, pi_div_four_deg]
  · norm_num [strokeB, strokeMeanX, strokeMeanY, Real.sqrt_zero]
  · norm_num [strokeB, strokeMeanX, strokeMeanY, Real.sqrt_zero, calculateScore_zero]

lemma not_vert_A : ¬vertCond lineA := by
  rw [vertCond]
  norm_num [lineA, abs_of_nonneg]

lemma not_neg_A : ¬lineA.Angle < 0 := by norm_num [lineA]

lemma not_vert_B : ¬vertCond lineB := by
  rw [vertCond]
  norm_num [lineB, abs_of_nonneg]

lemma not_neg_B : ¬lineB.Angle < 0 := by norm_num [lineB]

lemma fi_d_A : findIntersection dfltLine lineA = some ⟨10, 0⟩ := by
  unfold findIntersection
  rw [if_neg (by norm_num [dfltLine, lineA, maxFloat]),
    if_neg (by norm_num [dfltLine, maxFloat]), if_neg (by norm_num [lineA, maxFloat]),
    if_neg (by norm_num [dfltLine, lineA])]
  norm_num [dfltLine, lineA, Point.mk.injEq]

lemma fi_d_B : findIntersection dfltLine lineB = some ⟨20, 0⟩ := by
  unfold findIntersection
  rw [if_neg (by norm_num [dfltLine, lineB, maxFloat]),
    if_neg (by norm_num [dfltLine, maxFloat]), if_neg (by norm_num [lineB, maxFloat]),
    if_neg (by norm_num [dfltLine, lineB])]
  norm_num [dfltLine, lineB, Point.mk.injEq]

lemma fi_A_B : findIntersection lineA lineB = none := by
  unfold findIntersection
  rw [if_neg (by norm_num [lineA, lineB, maxFloat]),
    if_neg (by norm_num [lineA, maxFloat]), if_neg (by norm_num [lineB, maxFloat]),
    if_pos (by norm_num [lineA, lineB])]

lemma cluster_dAB : clusterLines [dfltLine, lineA, lineB] = ([], [0, 1, 2], []) := by
  simp only [clusterLines, clusterAux]
  rw [if_neg not_vertCond_dflt, if_neg not_neg_dflt, if_neg not_vert_A, if_neg not_neg_A,
    if_neg not_vert_B, if_neg not_neg_B]

lemma cluster_AB : clusterLines [lineA, lineB] = ([], [0, 1], []) := by
  simp only [clusterLines, clusterAux]
  rw [if_neg not_vert_A, if_neg not_neg_A, if_neg not_vert_B, if_neg not_neg_B]

lemma pw_dAB : pairwiseIntersections [dfltLine, lineA, lineB] [0, 1, 2] =
    [⟨10, 0⟩, ⟨20, 0⟩] := by
  simp [pairwiseIntersections, List.getD_cons_zero, List.getD_cons_succ, fi_d_A, fi_d_B,
    fi_A_B]

lemma pw_AB : pairwiseIntersections [lineA, lineB] [0, 1] = [] := by
  simp [pairwiseIntersections, List.getD_cons_zero, List.getD_cons_succ, fi_A_B]

lemma sqrt_twentyfive : Real.sqrt 25 = 5 := by
  rw [show (25 : ℝ) = 5 ^ 2 by norm_num, Real.sqrt_sq (by norm_num : (0 : ℝ) ≤ 5)]

lemma vp_dAB : calculateVanishingPoint [dfltLine, lineA, lineB] [0, 1, 2] =
    (some ⟨15, 0⟩, 5) := by
  unfold calculateVanishingPoint
  rw [if_neg (by norm_num), pw_dAB, if_neg (by norm_num)]
  norm_num [Point.mk.injEq, Prod.ext_iff, sqrt_twentyfive]

lemma vp_AB : calculateVanishingPoint [lineA, lineB] [0, 1] = (none, 0) := by
  unfold calculateVanishingPoint
  rw [if_neg (by norm_num), pw_AB]
  simp

lemma ps_5_0_lt : calculatePerspectiveScore 5 0 100 100 < 100 := by
  rw [calculatePerspectiveScore_eq]
  have hs : (0 : ℝ) < Real.sqrt (100 * 100 + 100 * 100) := Real.sqrt_pos.mpr (by norm_num)
  have hpos : (0 : ℝ) < ((5 : ℝ) + 0) / 2 / Real.sqrt (100 * 100 + 100 * 100) :=
    div_pos (by norm_num) hs
  have hz : (-(((5 : ℝ) + 0) / 2 / Real.sqrt (100 * 100 + 100 * 100)) * 10) < 0 := by
    nlinarith
  have hE : Real.exp (-(((5 : ℝ) + 0) / 2 / Real.sqrt (100 * 100 + 100 * 100)) * 10) < 1 :=
    Real.exp_lt_one_iff.mpr hz
  have hEpos : (0 : ℝ) < Real.exp
      (-(((5 : ℝ) + 0) / 2 / Real.sqrt (100 * 100 + 100 * 100)) * 10) :=
    Real.exp_pos _
  rw [min_eq_left (by nlinarith), max_eq_right (by nlinarith)]
  nlinarith

/-- The request containing a degenerate (empty) stroke plus two proper
positive-slope strokes. -/
def reqWithDegenerate : AnalysisRequest := ⟨[[], strokeA, strokeB], 100, 100⟩

/-- The same request without the degenerate stroke. -/
def reqWithoutDegenerate : AnalysisRequest := ⟨[strokeA, strokeB], 100, 100⟩

/-- C9: a stroke of fewer than 2 points yields the all-zero line, which the
clusterer always assigns to the LeftConverging group; in vanishing-point
estimation the zero line behaves exactly as the horizontal line `y = 0`
(its intersections with any non-vertical, non-near-parallel line lie on
`y = 0` and on that line); and concretely, adding the degenerate stroke to
two parallel left strokes changes the left convergence error from 0 to 5
and drags the perspective score below the perfect 100. -/
theorem degenerate_stroke_left_group :
    (∀ req : AnalysisRequest, ∀ i, i < req.strokes.length →
      (req.strokes.getD i []).length < 2 →
      i ∈ (clusterLines (req.strokes.map calculateIdealLine)).2.1) ∧
    (∀ l2 : Line, l2.M ≠ maxFloat → ¬(|dfltLine.M - l2.M| < 0.001) →
      ∃ p, findIntersection dfltLine l2 = some p ∧ p.y = 0 ∧
        p.y = l2.M * p.x + l2.B) ∧
    ((analyzeStrokes reqWithDegenerate).convergenceErrorL = 5 ∧
     (analyzeStrokes reqWithDegenerate).perspectiveScore < 100 ∧
     (analyzeStrokes reqWithoutDegenerate).convergenceErrorL = 0 ∧
     (analyzeStrokes reqWithoutDegenerate).perspectiveScore = 100) := by
  have hmapW : reqWithDegenerate.strokes.map calculateIdealLine =
      [dfltLine, lineA, lineB] := by
    simp only [reqWithDegenerate, List.map_cons, List.map_nil]
    rw [calcIdeal_short [] (by norm_num), lineA_eq, lineB_eq]
  have hmapWO : reqWithoutDegenerate.strokes.map calculateIdealLine = [lineA, lineB] := by
    simp only [reqWithoutDegenerate, List.map_cons, List.map_nil]
    rw [lineA_eq, lineB_eq]
  refine ⟨?_, ?_, ?_, ?_, ?_, ?_⟩
  · intro req i hi hshort
    have hlenm : i < (req.strokes.map calculateIdealLine).length := by simpa using hi
    have hget : (req.strokes.map calculateIdealLine).getD i dfltLine =
        calculateIdealLine (req.strokes.getD i []) := by
      rw [List.getD_eq_getElem _ _ hlenm, List.getElem_map, List.getD_eq_getElem _ _ hi]
    have hzero : calculateIdealLine (req.strokes.getD i []) = dfltLine :=
      calcIdeal_short _ hshort
    refine ((clusterLines_mem_char _ i).2.1).mpr ⟨hlenm, ?_, ?_⟩
    · rw [hget, hzero]
      exact not_vertCond_dflt
    · rw [hget, hzero]
      exact not_neg_dflt
  · intro l2 hM2 hpar
    have hdM : dfltLine.M ≠ maxFloat := by norm_num [dfltLine, maxFloat]
    have heq : findIntersection dfltLine l2 =
        some ⟨(l2.B - dfltLine.B) / (dfltLine.M - l2.M),
          dfltLine.M * ((l2.B - dfltLine.B) / (dfltLine.M - l2.M)) + dfltLine.B⟩ := by
      unfold findIntersection
      rw [if_neg (fun hc => hdM hc.1), if_neg hdM, if_neg hM2, if_neg hpar]
    have hm2ne : l2.M ≠ 0 := by
      intro h0
      apply hpar
      rw [show dfltLine.M = (0 : ℝ) from rfl, h0]
      norm_num
    refine ⟨_, heq, ?_, ?_⟩
    · show dfltLine.M * ((l2.B - dfltLine.B) / (dfltLine.M - l2.M)) + dfltLine.B = 0
      rw [show dfltLine.M = (0 : ℝ) from rfl, show dfltLine.B = (0 : ℝ) from rfl]
      ring
    · show dfltLine.M * ((l2.B - dfltLine.B) / (dfltLine.M - l2.M)) + dfltLine.B =
        l2.M * ((l2.B - dfltLine.B) / (dfltLine.M - l2.M)) + l2.B
      rw [show dfltLine.M = (0 : ℝ) from rfl, show dfltLine.B = (0 : ℝ) from rfl]
      field_simp
      rw [div_neg, mul_div_cancel_left₀ _ hm2ne]
      ring
  · simp only [analyzeStrokes, hmapW, cluster_dAB]
    norm_num [vp_dAB]
  · simp only [analyzeStrokes, hmapW, cluster_dAB]
    norm_num [vp_dAB]
    exact ps_5_0_lt
  · simp only [analyzeStrokes, hmapWO, cluster_AB]
    norm_num [vp_AB]
  · simp only [analyzeStrokes, hmapWO, cluster_AB]
    norm_num [vp_AB]
    exact perspectiveScore_zero_zero

/-- Witness for C9: index 0 of the degenerate-stroke request lands in the left
group, and the zero line meets `lineA` on the x-axis. -/
theorem degenerate_stroke_left_group_witness :
    0 ∈ (clusterLines (reqWithDegenerate.strokes.map calculateIdealLine)).2.1 ∧
    (∃ p, findIntersection dfltLine lineA = some p ∧ p.y = 0 ∧
      p.y = lineA.M * p.x + lineA.B) := by
  constructor
  · exact degenerate_stroke_left_group.1 reqWithDegenerate 0
      (by norm_num [reqWithDegenerate]) (by norm_num [reqWithDegenerate, List.getD_cons_zero])
  · exact degenerate_stroke_left_group.2.1 lineA (by norm_num [lineA, maxFloat])
      (by norm_num [dfltLine, lineA])
